import Mathlib

/-!
# golatex: `latexreport.go`

A shallow embedding of the report builder of `src/latexreport.go` and the
properties of its layout computation (`numrows`), its figure grid
(`MapFigure`), and its text-appending operations (`Animation`, `Plot`,
`Write`).

Conventions of the embedding

* Go `int` is the 64-bit two's complement integer: values are `Int`, and an
  arithmetic result that can leave the 64-bit range is passed through
  `wrapInt`.  The increments `i++`, `ii++` and `j++` follow a comparison with
  a slice length or with `nrows` and cannot overflow.
* A run-time panic (index out of range, integer division by zero,
  `strings.Repeat` with a negative count, an explicit `panic`) is the `none`
  result of an `Option`, or the `panicked` result of `Write`.
* `float64` appears in the source only through `float64(int)`, `math.Mod`
  on such values and `int(float64)`.  Every value involved is an integer (or
  NaN), so a `float64` is modelled by `Option Int` (`none` is NaN), with the
  IEEE-754 round-to-nearest-even conversion written out on integers.
* The text produced by the verb `%f` is taken as a parameter.
* The largest result `strings.Repeat` can allocate is a parameter,
  `maxAlloc`; string concatenation with `+=` is taken never to fail.

The goroutine pool (`ReportServer`, `reportworker`) and `CreateVideo` are not
embedded.
-/

namespace Latexreport

/-! ## Machine integers and the float64 conversions used by `numrows` -/

/-- Two's complement wrap-around of a Go `int` (64 bits). -/
def wrapInt (x : Int) : Int := (x + 2 ^ 63) % 2 ^ 64 - 2 ^ 63

/-- Go `a / b` on `int`: truncated division, a panic (`none`) for `b = 0`. -/
def intDiv (a b : Int) : Option Int :=
  if b = 0 then none else some (wrapInt (Int.tdiv a b))

/-- The number of low bits that do not fit in the 53-bit significand of a
float64: the least `e` (searched within `fuel` steps) with `n / 2^e < 2^53`.
The magnitude of an `int` is at most `2^63`, for which 11 steps suffice. -/
def shiftFor : Nat → Nat → Nat
  | 0, _ => 0
  | fuel + 1, n => if n < 2 ^ 53 then 0 else 1 + shiftFor fuel (n / 2)

/-- Round a natural number to the nearest float64 (ties to even).  The
result is again a natural number, because every float64 of magnitude at
least `2^53` is an integer. -/
def roundToFloat64 (n : Nat) : Nat :=
  let e := shiftFor 64 n
  let q := n / 2 ^ e
  let r := n % 2 ^ e
  if 2 * r < 2 ^ e then q * 2 ^ e
  else if 2 ^ e < 2 * r then (q + 1) * 2 ^ e
  else if q % 2 = 0 then q * 2 ^ e
  else (q + 1) * 2 ^ e

/-- Go `float64(x)` for an `int` x. -/
def float64OfInt (x : Int) : Option Int :=
  if x < 0 then some (-(roundToFloat64 x.natAbs : Int))
  else some (roundToFloat64 x.natAbs : Int)

/-- Go `math.Mod(x, y)` on integer-valued float64s: NaN when an argument is
NaN or `y = 0`; otherwise the exact remainder of the truncated division,
whose sign agrees with `x`. -/
def mathMod (x y : Option Int) : Option Int :=
  match x, y with
  | some a, some b => if b = 0 then none else some (Int.tmod a b)
  | _, _ => none

/-- Go `int(f)` for an integer-valued float64 f.  In `numrows` the argument
is a remainder of magnitude below `2^63`, which converts exactly; NaN is left
unspecified by the language, the value 0 stands for it and is never reached
in `numrows`. -/
def intOfFloat64 (f : Option Int) : Int :=
  match f with
  | some v => wrapInt v
  | none => 0

/-! ## `numrows` (source lines 69-79) -/

/-- The function `numrows(numfigs, numcols) (nrows, remainder)`. -/
def numrows (numfigs numcols : Int) : Option (Int × Int) :=
  let mod := mathMod (float64OfInt numfigs) (float64OfInt numcols)
  if mod = some 0 then
    (intDiv numfigs numcols).bind fun q => some (q, 0)
  else
    (intDiv numfigs numcols).bind fun q => some (wrapInt (q + 1), intOfFloat64 mod)

/-! ## The report and its constructors (source lines 12-67) -/

/-- The 26 caption labels. -/
def alphabet : List String :=
  ["A", "B", "C", "D", "E", "F", "G", "H", "I", "J", "K",
   "L", "M", "N", "O", "P", "Q", "R", "S", "T", "U", "V", "W", "X", "Y", "Z"]

/-- The struct `Report`. -/
structure Report where
  FileName : String
  StandAlone : Bool
  txt : String
  Outdir : String
  PNGconvert : Bool
  deriving DecidableEq

/-- What the source does with `float64` values outside `numrows`: it prints
one with the verb `%f` (`fmtF`) and computes `1./float64(n)` (`recip`).  Both
are parameters of the embedding. -/
structure Float64Ops (F : Type) where
  fmtF : F → String
  recip : Int → F

/-- The function `NewReport`. -/
def NewReport (FileName : String) : Report :=
  { FileName := FileName
    StandAlone := false
    Outdir := ""
    PNGconvert := false
    txt := "\n\\documentclass[8pt]\x7bextarticle\x7d\n\\usepackage\x7bfontspec\x7d\n\\setmainfont\x7bHelvetica\x7d\n\\usepackage[controls,loop]\x7banimate\x7d\n\\usepackage\x7bgraphicx\x7d\n\\usepackage\x7bcaption\x7d\n\\usepackage[left=0.7in,right=0.7in,top=0.7in,bottom=0.7in]\x7bgeometry\x7d\n\\usepackage\x7bfloat\x7d\n\\setlength\x7b\\tabcolsep\x7d\x7b0pt\x7d\n\\begin\x7bdocument\x7d\n" }

/-- The function `NewStandAloneReport`; `Outdir` and `PNGconvert` keep the
zero values of `new(Report)`. -/
def NewStandAloneReport {F : Type} (fl : Float64Ops F) (FileName : String) (x y : F) : Report :=
  { FileName := FileName
    StandAlone := true
    Outdir := ""
    PNGconvert := false
    txt := "\n\\documentclass[8pt]\x7bextarticle\x7d\n\\usepackage\x7bfontspec\x7d\n\\setmainfont[Path=/home/marshall/tessumcm/.fonts/,UprightFont=*]\x7bHelvetica\x7d\n\\usepackage[controls,loop]\x7banimate\x7d\n\\usepackage\x7bgraphicx\x7d\n\\usepackage\x7bcaption\x7d"
      ++ ("\\usepackage[noheadfoot,nomarginpar,margin=0pt,paperwidth=" ++ fl.fmtF x
            ++ "in,paperheight=" ++ fl.fmtF y ++ "in]\x7bgeometry\x7d")
      ++ "\n\\pagestyle\x7bempty\x7d\n\\parindent=0pt\n\\usepackage\x7bfloat\x7d\n\\setlength\x7b\\tabcolsep\x7d\x7b0pt\x7d\n\\begin\x7bdocument\x7d\n" }

/-! ## `MapFigure` (source lines 81-134) -/

/-- Go `strings.Repeat(s, count)`.  It returns `""` for count 0 and `s` for
count 1, panics for a negative count and for a result length that overflows
an `int`, and then allocates the result.  `maxAlloc` is the largest number of
bytes one allocation can obtain in the run at hand (the limit of the runtime
is `2^48` bytes on 64-bit platforms): a larger request is the panic
`makeslice: len out of range` or the end of the program for lack of memory. -/
def stringsRepeat (maxAlloc : Nat) (s : String) (count : Int) : Option String :=
  if count = 0 then some ""
  else if count = 1 then some s
  else if count < 0 then none
  else if 2 ^ 63 ≤ (s.utf8ByteSize : Int) * count then none
  else if (maxAlloc : Int) < (s.utf8ByteSize : Int) * count then none
  else some (String.join (List.replicate count.toNat s))

/-- The text of one figure cell:
`fmt.Sprintf("\\includegraphics[width=%f\\textwidth]{%s}", 1./float64(ncolumns), file)`. -/
def figCell {F : Type} (fl : Float64Ops F) (ncolumns : Int) (file : String) : String :=
  "\\includegraphics[width=" ++ fl.fmtF (fl.recip ncolumns) ++ "\\textwidth]\x7b" ++ file ++ "\x7d"

/-- The text of one sub-caption cell: `fmt.Sprintf("(%s) %s", letter, title)`. -/
def capCell (letter title : String) : String :=
  "(" ++ letter ++ ") " ++ title

/-- The first inner loop of `MapFigure` (lines 96-106), from the state
`(r.txt, i)`.  Indexing `mapFileNames[i]` out of range is a panic. -/
def figLoop {F : Type} (fl : Float64Ops F) (mapFileNames : List String) (ncolumns endofrow : Int)
    (txt : String) (i : Int) : Option (String × Int) :=
  if i = endofrow then some (txt, i)
  else if h : 0 ≤ i ∧ i < (mapFileNames.length : Int) then
    let txt1 := txt ++ figCell fl ncolumns (mapFileNames.getD i.toNat "")
    let txt2 := if i < wrapInt (endofrow - 1) then txt1 ++ " &\n" else txt1
    figLoop fl mapFileNames ncolumns endofrow txt2 (i + 1)
  else none
termination_by ((mapFileNames.length : Int) - i).toNat
decreasing_by omega

/-- The second inner loop of `MapFigure` (lines 108-117), from the state
`(r.txt, ii)`.  Indexing `alphabet[ii]` or `Titles[ii]` out of range is a
panic. -/
def capLoop (Titles : List String) (endofrow : Int) (txt : String) (ii : Int) :
    Option (String × Int) :=
  if ii = endofrow then some (txt, ii)
  else if h : (0 ≤ ii ∧ ii < (alphabet.length : Int)) ∧ ii < (Titles.length : Int) then
    let txt1 := txt ++ capCell (alphabet.getD ii.toNat "") (Titles.getD ii.toNat "")
    let txt2 := if ii < wrapInt (endofrow - 1) then txt1 ++ " &\n" else txt1
    capLoop Titles endofrow txt2 (ii + 1)
  else none
termination_by ((Titles.length : Int) - ii).toNat
decreasing_by omega

/-- The state of the row loop of `MapFigure`: the text and the two running
indices `i` and `ii`. -/
structure GridState where
  txt : String
  i : Int
  ii : Int
  deriving DecidableEq

/-- The loop `for j := 0; j < nrows; j++` of `MapFigure` (lines 89-119),
entered at `j`. -/
def rowLoop {F : Type} (fl : Float64Ops F) (mapFileNames Titles : List String)
    (ncolumns nrows remainder : Int) (j : Int) (s : GridState) : Option GridState :=
  if j < nrows then
    let endofrow :=
      if j = wrapInt (nrows - 1) ∧ remainder ≠ 0 then wrapInt (s.i + remainder)
      else wrapInt (s.i + ncolumns)
    match figLoop fl mapFileNames ncolumns endofrow s.txt s.i with
    | none => none
    | some (t1, i1) =>
      match capLoop Titles endofrow (t1 ++ " \\\\\n") s.ii with
      | none => none
      | some (t2, ii1) =>
        rowLoop fl mapFileNames Titles ncolumns nrows remainder (j + 1)
          { txt := t2 ++ " \\\\\n", i := i1, ii := ii1 }
  else some s
termination_by (nrows - j).toNat
decreasing_by omega

/-- The legend lines of `MapFigure` (lines 121-124), appended to `txt`. -/
def legendLoop (legendFiles : List String) (txt : String) : String :=
  legendFiles.foldl
    (fun t legendFile => t ++ ("\\includegraphics[width=0.49\\textwidth]\x7b" ++ legendFile ++ "\x7d\n"))
    txt

/-- The method `(*Report).MapFigure`; `none` when the call panics.
`maxAlloc` is the allocation limit of `strings.Repeat`. -/
def MapFigure {F : Type} (maxAlloc : Nat) (fl : Float64Ops F) (r : Report)
    (mapFileNames Titles legendFiles : List String) (caption : String) (ncolumns : Int) :
    Option Report :=
  match stringsRepeat maxAlloc "c" ncolumns with
  | none => none
  | some cs =>
    let txt0 := r.txt ++ ("\n\\begin\x7bfigure\x7d[H]\n\\begin\x7bcenter\x7d\n"
      ++ ("\\begin\x7btabular\x7d\x7b" ++ cs ++ "\x7d\n"))
    match numrows (mapFileNames.length : Int) ncolumns with
    | none => none
    | some (nrows, remainder) =>
      match rowLoop fl mapFileNames Titles ncolumns nrows remainder 0
          { txt := txt0, i := 0, ii := 0 } with
      | none => none
      | some s =>
        let txt1 := s.txt ++ "\\end\x7btabular\x7d\n"
        let txt2 := legendLoop legendFiles txt1
        let txt3 := txt2 ++ "\\\\\n"
        if r.StandAlone then
          some { r with txt := txt3 ++ ("\\end\x7bcenter\x7d\n\\caption*\x7b" ++ caption
            ++ "\x7d\n\\end\x7bfigure\x7d\n") }
        else
          some { r with txt := txt3 ++ ("\\end\x7bcenter\x7d\n\\caption\x7b" ++ caption
            ++ "\x7d\n\\end\x7bfigure\x7d\n") }

/-! ## `Animation` and `Plot` (source lines 136-150) -/

/-- The decimal digits of a natural number. -/
def decimal (n : Nat) : String := String.mk (Nat.toDigits 10 n)

/-- The verb `%d` of package `fmt` on an `int`. -/
def fmtD (x : Int) : String :=
  if x < 0 then "-" ++ decimal x.natAbs else decimal x.natAbs

/-- The integer formatting of package `fmt` with the flag `0` and a width:
the sign, then the digits zero-padded so that sign and digits fill the
width. -/
def fmtZeroPad (wid : Nat) (x : Int) : String :=
  let digits := decimal x.natAbs
  let prec := if x < 0 then wid - 1 else wid
  let padded := String.mk (List.replicate (prec - digits.length) '0') ++ digits
  if x < 0 then "-" ++ padded else padded

/-- What `fmt.Sprintf` writes for the directive `%04i` and an `int` argument.
Package `fmt` has no verb `i`: its integer verbs are `b c d o O q x X U` (and
`v`).  For an unknown verb it writes `%!verb(type=value)`, the value printed
as by `%v` with the flags and width of the directive still in force. -/
def sprintf04i (x : Int) : String :=
  "%!i(int=" ++ fmtZeroPad 4 x ++ ")"

/-- The method `(*Report).Animation`. -/
def Animation (r : Report) (filebase : String) (numFrames : Int) (caption : String)
    (framesPerSec : Int) : Report :=
  { r with txt := r.txt ++ ("\\begin\x7bfigure\x7d[H]\n"
      ++ ("\\animategraphics[width=\\textwidth]\x7b" ++ fmtD framesPerSec ++ "\x7d\x7b" ++ filebase
            ++ "\x7d\x7b0000\x7d\x7b" ++ sprintf04i (wrapInt (numFrames - 1)) ++ "\x7d\n")
      ++ ("\\caption\x7b" ++ caption ++ "\x7d\n\\end\x7bfigure\x7d\n")) }

/-- The method `(*Report).Plot`. -/
def Plot (r : Report) (filename caption : String) : Report :=
  { r with txt := r.txt ++ (("\\begin\x7bfigure\x7d[H]\n\\includegraphics\x7b" ++ filename ++ "\x7d\n")
      ++ ("\\caption\x7b" ++ caption ++ "\x7d\n\\end\x7bfigure\x7d\n")) }

/-! ## `Write` and `ConvertToPng` (source lines 152-190) -/

/-- Go `strings.Index(s, sub)` on the character sequences, scanning from
position `k`: the position of the first occurrence, or `-1`.  (The source
uses only the comparison of the result with `-1`.) -/
def indexFrom (sub : List Char) : List Char → Nat → Int
  | [], k => if sub.isPrefixOf [] then (k : Int) else -1
  | c :: cs, k => if sub.isPrefixOf (c :: cs) then (k : Int) else indexFrom sub cs (k + 1)

/-- Go `strings.Index(s, sub)`. -/
def stringsIndex (s sub : String) : Int := indexFrom sub.data s.data 0

/-- What the environment answers to one call of `Write`: the errors of
`os.Create` and `io.WriteString` (`none` is `nil`), and the combined output
and error of the `xelatex` and `convert` processes. -/
structure World where
  createErr : Option String
  writeErr : Option String
  xelatexOut : String
  xelatexErr : Option String
  convertOut : String
  convertErr : Option String

/-- The actions of `Write` on its environment, in the order performed. -/
inductive Effect where
  | create (name : String)
  | writeString (name : String) (content : String)
  | close (name : String)
  | run (cmd : String) (args : List String)
  deriving DecidableEq

/-- The value a panic carries. -/
inductive Diag where
  | err (e : String)
  | text (s : String)
  | errorf (format : String)
  deriving DecidableEq

/-- How a call ends. -/
inductive Outcome where
  | returned
  | panicked (d : Diag)
  deriving DecidableEq

/-- The result of a call of `Write` or `ConvertToPng`: the report as the call
left it, the actions performed, and how the call ended. -/
structure Res where
  report : Report
  effects : List Effect
  outcome : Outcome

/-- The method `(*Report).ConvertToPng`, after the actions `eff`. -/
def ConvertToPng (w : World) (r : Report) (eff : List Effect) : Res :=
  let eff1 := eff ++ [Effect.run "convert" ["-density", "400", r.FileName ++ ".pdf", r.FileName ++ ".png"]]
  match w.convertErr with
  | some _ => { report := r, effects := eff1, outcome := Outcome.panicked (Diag.errorf w.convertOut) }
  | none => { report := r, effects := eff1, outcome := Outcome.returned }

/-- The method `(*Report).Write`.  The error of `xelatex` is assigned and
never read. -/
def Write (w : World) (r : Report) : Res :=
  let r1 : Report := { r with txt := r.txt ++ "\n\\end\x7bdocument\x7d\n" }
  let eff1 := [Effect.create (r1.FileName ++ ".tex")]
  match w.createErr with
  | some e => { report := r1, effects := eff1, outcome := Outcome.panicked (Diag.err e) }
  | none =>
    let eff2 := eff1 ++ [Effect.writeString (r1.FileName ++ ".tex") r1.txt]
    match w.writeErr with
    | some e => { report := r1, effects := eff2, outcome := Outcome.panicked (Diag.err e) }
    | none =>
      let eff3 := eff2 ++ [Effect.close (r1.FileName ++ ".tex")]
      let args :=
        if r1.Outdir = "" then [r1.FileName ++ ".tex"]
        else ["-output-directory=" ++ r1.Outdir, r1.FileName ++ ".tex"]
      let eff4 := eff3 ++ [Effect.run "xelatex" args]
      let output := w.xelatexOut
      if stringsIndex output "Emergency" ≠ -1 then
        { report := r1, effects := eff4, outcome := Outcome.panicked (Diag.text output) }
      else if r1.PNGconvert = true then
        ConvertToPng w r1 eff4
      else
        { report := r1, effects := eff4, outcome := Outcome.returned }

/-! ## The layout as the specification words it

The definitions of this section follow the specification, not the source,
and use no definition of the sections above except `Float64Ops`: row `j`
spans the figures `[j*numColumns, j*numColumns + rowWidth)`. -/

/-- The number of rows: `ceil(numFigures / numColumns)`. -/
def specRows (n nc : Nat) : Nat := (n + nc - 1) / nc

/-- The width of row `j`: `numColumns`, except that the last row has the
remainder when the remainder is not zero. -/
def specRowWidth (n nc j : Nat) : Nat :=
  if j + 1 = specRows n nc ∧ n % nc ≠ 0 then n % nc else nc

/-- The figure indices of row `j`, in increasing order. -/
def specRowIndices (n nc j : Nat) : List Nat :=
  List.range' (j * nc) (specRowWidth n nc j)

/-- The rows of the grid, top to bottom. -/
def specGrid (n nc : Nat) : List (List Nat) :=
  (List.range (specRows n nc)).map (specRowIndices n nc)

/-- Cells separated by `sep`. -/
def joinCells (sep : String) : List String → String
  | [] => ""
  | [c] => c
  | c :: c2 :: cs => c ++ sep ++ joinCells sep (c2 :: cs)

/-- The concatenation of a list of texts. -/
def concatAll : List String → String
  | [] => ""
  | s :: ss => s ++ concatAll ss

/-- The text of one grid row: the figure cells of the row, the end of the
line, the caption cells of the same indices, the end of the line. -/
def specRowText (figOf capOf : Nat → String) (idxs : List Nat) : String :=
  joinCells " &\n" (idxs.map figOf) ++ " \\\\\n" ++ (joinCells " &\n" (idxs.map capOf) ++ " \\\\\n")

/-- The text of the grid: its rows in order. -/
def specGridText (figOf capOf : Nat → String) (rows : List (List Nat)) : String :=
  concatAll (rows.map (specRowText figOf capOf))

/-- The figure cell of index `k`: the image of the `k`-th file, at the width
`1/numColumns` of the frame. -/
def figOf {F : Type} (fl : Float64Ops F) (mapFileNames : List String) (ncolumns : Int) (k : Nat) :
    String :=
  "\\includegraphics[width=" ++ fl.fmtF (fl.recip ncolumns) ++ "\\textwidth]\x7b"
    ++ mapFileNames.getD k "" ++ "\x7d"

/-- The `k`-th letter of the alphabet `A..Z`, counted from 0. -/
def specLetter (k : Nat) : String := String.singleton (Char.ofNat ('A'.toNat + k))

/-- The sub-caption of index `k`: the `k`-th letter in parentheses, a blank,
and the `k`-th title. -/
def capOf (Titles : List String) (k : Nat) : String :=
  "(" ++ specLetter k ++ ") " ++ Titles.getD k ""

/-- The text `MapFigure` puts before the grid. -/
def gridHeader (ncolumns : Nat) : String :=
  "\n\\begin\x7bfigure\x7d[H]\n\\begin\x7bcenter\x7d\n"
    ++ ("\\begin\x7btabular\x7d\x7b" ++ String.join (List.replicate ncolumns "c") ++ "\x7d\n")

/-- One legend image line. -/
def legendLine (legendFile : String) : String :=
  "\\includegraphics[width=0.49\\textwidth]\x7b" ++ legendFile ++ "\x7d\n"

/-- The overall caption and the end of the figure, in the numbered or the
unnumbered (`\caption*`) form. -/
def captionText (standAlone : Bool) (caption : String) : String :=
  if standAlone then "\\end\x7bcenter\x7d\n\\caption*\x7b" ++ caption ++ "\x7d\n\\end\x7bfigure\x7d\n"
  else "\\end\x7bcenter\x7d\n\\caption\x7b" ++ caption ++ "\x7d\n\\end\x7bfigure\x7d\n"

/-- The text a completed `MapFigure` call appends to the report: the
header, the grid, the end of the tabular, the legend lines, the line break and
the overall caption. -/
def specFigureText {F : Type} (fl : Float64Ops F) (mapFileNames Titles legendFiles : List String)
    (caption : String) (standAlone : Bool) (ncolumns : Nat) : String :=
  gridHeader ncolumns ++
    (specGridText (figOf fl mapFileNames ncolumns) (capOf Titles)
        (specGrid mapFileNames.length ncolumns) ++
      ("\\end\x7btabular\x7d\n" ++ (concatAll (legendFiles.map legendLine) ++
        ("\\\\\n" ++ captionText standAlone caption))))

/-- A sample instance of the float64 operations, used for concrete inputs:
every float64 prints as `w`. -/
def constOps (w : String) : Float64Ops Unit :=
  { fmtF := fun _ => w, recip := fun _ => () }

/-- A sample environment in which every step of `Write` succeeds and
`xelatex` prints `out`. -/
def quietWorld (out : String) : World :=
  { createErr := none, writeErr := none, xelatexOut := out, xelatexErr := none,
    convertOut := "", convertErr := none }

/-- Seven sample figure files. -/
def sevenFiles : List String :=
  ["m1.png", "m2.png", "m3.png", "m4.png", "m5.png", "m6.png", "m7.png"]

/-- Seven sample titles. -/
def sevenTitles : List String := ["t1", "t2", "t3", "t4", "t5", "t6", "t7"]

/-! ## Properties -/

theorem wrapInt_of_range (x : Int) (h1 : -2 ^ 63 ≤ x) (h2 : x < 2 ^ 63) : wrapInt x = x := by
  unfold wrapInt
  omega

theorem shiftFor_small (fuel n : Nat) (h : n < 2 ^ 53) : shiftFor fuel n = 0 := by
  cases fuel with
  | zero => rfl
  | succ f => simp only [shiftFor, if_pos h]

theorem roundToFloat64_small (n : Nat) (h : n < 2 ^ 53) : roundToFloat64 n = n := by
  simp [roundToFloat64, shiftFor_small 64 n h, Nat.mod_one]

theorem shiftFor_big (fuel n : Nat) (hf : 1 ≤ fuel) (h : 2 ^ 53 ≤ n) :
    1 ≤ shiftFor fuel n ∧ 2 ^ 52 ≤ n / 2 ^ shiftFor fuel n := by
  induction fuel generalizing n with
  | zero => omega
  | succ f ih =>
    have hn : ¬ n < 2 ^ 53 := by omega
    simp only [shiftFor, hn, if_false]
    refine ⟨by omega, ?_⟩
    rw [pow_add, pow_one, ← Nat.div_div_eq_div_mul]
    by_cases h2 : n / 2 < 2 ^ 53
    · rw [shiftFor_small f _ h2]
      simp
      omega
    · by_cases hf0 : f = 0
      · subst hf0
        simp [shiftFor]
        omega
      · exact (ih (n / 2) (by omega) (by omega)).2

theorem roundToFloat64_big (n : Nat) (h : 2 ^ 53 ≤ n) : 2 ^ 53 ≤ roundToFloat64 n := by
  obtain ⟨he, hq⟩ := shiftFor_big 64 n (by norm_num) h
  have hpow : 2 ^ 1 ≤ 2 ^ shiftFor 64 n := Nat.pow_le_pow_right (by norm_num) he
  have base : 2 ^ 53 ≤ n / 2 ^ shiftFor 64 n * 2 ^ shiftFor 64 n := by
    calc 2 ^ 53 = 2 ^ 52 * 2 ^ 1 := by norm_num
      _ ≤ n / 2 ^ shiftFor 64 n * 2 ^ shiftFor 64 n := Nat.mul_le_mul hq hpow
  have step : n / 2 ^ shiftFor 64 n * 2 ^ shiftFor 64 n
      ≤ (n / 2 ^ shiftFor 64 n + 1) * 2 ^ shiftFor 64 n :=
    Nat.mul_le_mul_right _ (Nat.le_succ _)
  simp only [roundToFloat64]
  split_ifs <;> omega


theorem float64OfInt_small (x : Int) (h0 : 0 ≤ x) (h : x < 2 ^ 53) :
    float64OfInt x = some x := by
  have hx : ¬ x < 0 := by omega
  have hn : x.natAbs < 2 ^ 53 := by omega
  simp only [float64OfInt, hx, if_false, roundToFloat64_small _ hn]
  congr 1
  omega

theorem float64OfInt_big (x : Int) (h : 2 ^ 53 ≤ x) :
    ∃ c : Int, float64OfInt x = some c ∧ 2 ^ 53 ≤ c := by
  have hx : ¬ x < 0 := by omega
  have hn : 2 ^ 53 ≤ x.natAbs := by omega
  refine ⟨(roundToFloat64 x.natAbs : Int), by simp only [float64OfInt, hx, if_false], ?_⟩
  have := roundToFloat64_big _ hn
  omega

/-- On a figure count below `2^53` the float64 remainder of `numrows` is the
integer remainder. -/
theorem mathMod_float64 (numfigs numcols : Int) (h0 : 0 ≤ numfigs)
    (h53 : numfigs < 2 ^ 53) (h1 : 1 ≤ numcols) :
    mathMod (float64OfInt numfigs) (float64OfInt numcols) = some (numfigs % numcols) := by
  rw [float64OfInt_small numfigs h0 h53]
  by_cases hc : numcols < 2 ^ 53
  · rw [float64OfInt_small numcols (by omega) hc]
    have hne : numcols ≠ 0 := by omega
    simp only [mathMod, hne, if_false]
    rw [Int.tmod_eq_emod h0 (by omega)]
  · obtain ⟨c, hc1, hc2⟩ := float64OfInt_big numcols (by omega)
    rw [hc1]
    have hne : c ≠ 0 := by omega
    simp only [mathMod, hne, if_false]
    rw [Int.tmod_eq_of_lt h0 (by omega), Int.emod_eq_of_lt h0 (by omega)]

theorem numrows_eq (numfigs numcols : Int) (h0 : 0 ≤ numfigs)
    (h53 : numfigs < 2 ^ 53) (h1 : 1 ≤ numcols) :
    numrows numfigs numcols =
      some (if numfigs % numcols = 0 then numfigs / numcols else numfigs / numcols + 1,
            numfigs % numcols) := by
  have hne : numcols ≠ 0 := by omega
  have hq0 : 0 ≤ numfigs / numcols := Int.ediv_nonneg h0 (by omega)
  have hq1 : numfigs / numcols ≤ numfigs := Int.ediv_le_self _ h0
  have hr0 : 0 ≤ numfigs % numcols := Int.emod_nonneg _ hne
  have hdm : numcols * (numfigs / numcols) + numfigs % numcols = numfigs :=
    Int.ediv_add_emod numfigs numcols
  have hprod : 0 ≤ numcols * (numfigs / numcols) := Int.mul_nonneg (by omega) hq0
  have hw1 : wrapInt (Int.tdiv numfigs numcols) = numfigs / numcols := by
    rw [Int.tdiv_eq_ediv h0 (by omega)]
    exact wrapInt_of_range _ (by omega) (by omega)
  have hw2 : wrapInt (numfigs / numcols + 1) = numfigs / numcols + 1 :=
    wrapInt_of_range _ (by omega) (by omega)
  have hw3 : wrapInt (numfigs % numcols) = numfigs % numcols :=
    wrapInt_of_range _ (by omega) (by omega)
  simp only [numrows, mathMod_float64 numfigs numcols h0 h53 h1, intDiv, hne, if_false,
    Option.some_bind, hw1, intOfFloat64, hw3, hw2, Option.some.injEq]
  by_cases hz : numfigs % numcols = 0
  · simp [hz]
  · simp [hz]

/-- The claim C1, restricted to figure counts that float64 represents exactly:
for `0 ≤ numfigs < 2^53` and every `numcols ≥ 1`, `numrows` returns
`nrows = ceil(numfigs / numcols)`, the least `r` with `r * numcols ≥ numfigs`,
and `remainder = numfigs mod numcols`. -/
theorem numrows_ceil_of_exact (numfigs numcols : Int) (h0 : 0 ≤ numfigs)
    (h53 : numfigs < 2 ^ 53) (h1 : 1 ≤ numcols) :
    ∃ nrows remainder : Int, numrows numfigs numcols = some (nrows, remainder) ∧
      nrows = (numfigs + numcols - 1) / numcols ∧
      remainder = numfigs % numcols ∧
      nrows * numcols ≥ numfigs ∧ (nrows - 1) * numcols < numfigs ∧
      (∀ r : Int, r * numcols ≥ numfigs → nrows ≤ r) := by
  have hne : numcols ≠ 0 := by omega
  have hdm : numcols * (numfigs / numcols) + numfigs % numcols = numfigs :=
    Int.ediv_add_emod numfigs numcols
  have hr0 : 0 ≤ numfigs % numcols := Int.emod_nonneg _ hne
  have hr1 : numfigs % numcols < numcols := Int.emod_lt_of_pos _ (by omega)
  refine ⟨_, _, numrows_eq numfigs numcols h0 h53 h1, ?_, rfl, ?_, ?_, ?_⟩
  · by_cases hz : numfigs % numcols = 0
    · simp only [hz, if_true]
      symm
      refine ((Int.ediv_emod_unique (by omega : 0 < numcols)).2
        (⟨?_, ?_, ?_⟩ : (numcols - 1) + numcols * (numfigs / numcols) = _ ∧ _ ∧ _)).1 <;> omega
    · simp only [hz, if_false]
      symm
      refine ((Int.ediv_emod_unique (by omega : 0 < numcols)).2
        (⟨?_, ?_, ?_⟩ : (numfigs % numcols - 1) + numcols * (numfigs / numcols + 1) = _
          ∧ _ ∧ _)).1
      · rw [Int.mul_add]; omega
      · omega
      · omega
  · by_cases hz : numfigs % numcols = 0
    · simp only [hz, if_true]
      rw [Int.mul_comm]; omega
    · simp only [hz, if_false]
      rw [Int.mul_comm, Int.mul_add]; omega
  · by_cases hz : numfigs % numcols = 0
    · simp only [hz, if_true]
      rw [Int.mul_comm, Int.mul_sub]; omega
    · simp only [hz, if_false]
      rw [Int.mul_comm]
      have : numfigs / numcols + 1 - 1 = numfigs / numcols := by omega
      rw [this]; omega
  · intro r hr
    by_contra hlt
    have hle : r * numcols ≤ numcols * (numfigs / numcols) + (numfigs % numcols - 1) := by
      by_cases hz : numfigs % numcols = 0
      · simp only [hz, if_true] at hlt
        have h2 : r ≤ numfigs / numcols - 1 := by omega
        have h3 := Int.mul_le_mul_of_nonneg_right h2 (by omega : (0 : Int) ≤ numcols)
        rw [Int.sub_mul, Int.mul_comm (numfigs / numcols)] at h3
        omega
      · simp only [hz, if_false] at hlt
        have h2 : r ≤ numfigs / numcols := by omega
        have h3 := Int.mul_le_mul_of_nonneg_right h2 (by omega : (0 : Int) ≤ numcols)
        rw [Int.mul_comm (numfigs / numcols)] at h3
        omega
    omega

theorem numrows_ceil_of_exact_witness :
    (0 : Int) ≤ 10 ∧ (10 : Int) < 2 ^ 53 ∧ (1 : Int) ≤ 3 ∧
    (∃ nrows remainder : Int, numrows 10 3 = some (nrows, remainder) ∧
      nrows = (10 + 3 - 1) / 3 ∧
      remainder = 10 % 3 ∧
      nrows * 3 ≥ 10 ∧ (nrows - 1) * 3 < 10 ∧
      (∀ r : Int, r * 3 ≥ 10 → nrows ≤ r)) :=
  ⟨by decide, by decide, by decide,
    numrows_ceil_of_exact 10 3 (by decide) (by decide) (by decide)⟩

/-- The three sample values of the specification. -/
theorem numrows_examples :
    numrows 10 3 = some (4, 1) ∧ numrows 9 3 = some (3, 0) ∧ numrows 0 5 = some (0, 0) := by
  decide

/-- Claim C1 fails above `2^53`: for `numfigs = 2^53 + 1` and `numcols = 2`
`numrows` returns `(2^52, 0)`, although the remainder is 1 and
`2^52 * 2 < numfigs`. -/
theorem numrows_large_counterexample :
    numrows 9007199254740993 2 = some (4503599627370496, 0) ∧
      (9007199254740993 : Int) % 2 = 1 ∧
      (4503599627370496 : Int) * 2 < 9007199254740993 := by
  decide

theorem joinCells_cons (sep c : String) (cs : List String) :
    joinCells sep (c :: cs) = c ++ ((if cs = [] then "" else sep) ++ joinCells sep cs) := by
  cases cs with
  | nil => simp [joinCells]
  | cons c2 cs => simp [joinCells, String.append_assoc]

theorem figLoop_spec {F : Type} (fl : Float64Ops F) (files : List String) (nc : Int)
    (d : Nat) : ∀ (a : Nat) (txt : String), a + d ≤ files.length → files.length < 2 ^ 62 →
      figLoop fl files nc ((a + d : Nat) : Int) txt (a : Int) =
        some (txt ++ joinCells " &\n" ((List.range' a d).map (figOf fl files nc)),
              ((a + d : Nat) : Int)) := by
  induction d with
  | zero =>
    intro a txt _ _
    rw [figLoop]
    simp [joinCells]
  | succ d ih =>
    intro a txt hle hlen
    rw [figLoop]
    have h1 : ¬ ((a : Int) = ((a + (d + 1) : Nat) : Int)) := by omega
    have h2 : 0 ≤ (a : Int) ∧ (a : Int) < (files.length : Int) := by omega
    have hw : wrapInt (((a + (d + 1) : Nat) : Int) - 1) = ((a + d : Nat) : Int) := by
      rw [wrapInt_of_range _ (by omega) (by omega)]; omega
    simp only [h1, if_false, h2, and_self, dif_pos, hw, Int.toNat_ofNat]
    have h3 := ih (a + 1) 
    have e1 : ((a : Int) + 1) = ((a + 1 : Nat) : Int) := by omega
    have e2 : ((a + (d + 1) : Nat) : Int) = ((a + 1 + d : Nat) : Int) := by omega
    rw [e1, e2, h3 _ (by omega) hlen, List.range'_succ, List.map_cons, joinCells_cons]
    by_cases hd : d = 0
    · subst hd
      simp [figOf, figCell, String.append_assoc]
    · have h5 : List.map (figOf fl files nc) (List.range' (a + 1) d) ≠ [] := by simp [hd]
      have h4 : (a : Int) < ((a + d : Nat) : Int) := by omega
      simp only [h4, h5, if_true, if_false, figOf, figCell, String.append_assoc]

/-- The 26 labels of the source are the letters `A..Z` in order. -/
theorem alphabet_getD_eq (k : Nat) (hk : k < 26) : alphabet.getD k "" = specLetter k := by
  interval_cases k <;> rfl

theorem capLoop_spec (titles : List String) (d : Nat) :
    ∀ (a : Nat) (txt : String), a + d ≤ titles.length → a + d ≤ 26 →
      capLoop titles ((a + d : Nat) : Int) txt (a : Int) =
        some (txt ++ joinCells " &\n" ((List.range' a d).map (capOf titles)),
              ((a + d : Nat) : Int)) := by
  induction d with
  | zero =>
    intro a txt _ _
    rw [capLoop]
    simp [joinCells]
  | succ d ih =>
    intro a txt hle hlen
    rw [capLoop]
    have h1 : ¬ ((a : Int) = ((a + (d + 1) : Nat) : Int)) := by omega
    have hal : alphabet.length = 26 := rfl
    have h2 : (0 ≤ (a : Int) ∧ (a : Int) < (alphabet.length : Int)) ∧
        (a : Int) < (titles.length : Int) := by rw [hal]; omega
    have hw : wrapInt (((a + (d + 1) : Nat) : Int) - 1) = ((a + d : Nat) : Int) := by
      rw [wrapInt_of_range _ (by omega) (by omega)]; omega
    simp only [h1, if_false, h2, and_self, dif_pos, hw, Int.toNat_ofNat]
    rw [alphabet_getD_eq a (by omega)]
    have h3 := ih (a + 1)
    have e1 : ((a : Int) + 1) = ((a + 1 : Nat) : Int) := by omega
    have e2 : ((a + (d + 1) : Nat) : Int) = ((a + 1 + d : Nat) : Int) := by omega
    rw [e1, e2, h3 _ (by omega) (by omega), List.range'_succ, List.map_cons, joinCells_cons]
    by_cases hd : d = 0
    · subst hd
      simp [capOf, capCell, String.append_assoc]
    · have h5 : List.map (capOf titles) (List.range' (a + 1) d) ≠ [] := by simp [hd]
      have h4 : (a : Int) < ((a + d : Nat) : Int) := by omega
      simp only [h4, h5, if_true, if_false, capOf, capCell, String.append_assoc]

/-- The first inner loop only appends: a text put in front of its input
comes out in front of its output. -/
theorem figLoop_frame {F : Type} (fl : Float64Ops F) (files : List String) (nc e : Int)
    (txt : String) (i : Int) : ∀ p : String,
      figLoop fl files nc e (p ++ txt) i =
        (figLoop fl files nc e txt i).map (fun x => (p ++ x.1, x.2)) := by
  induction txt, i using figLoop.induct fl files nc e with
  | case1 txt =>
    intro p
    rw [figLoop, figLoop.eq_1 fl files nc e txt]
    simp
  | case2 txt i h1 h2 txt1 txt2 ih =>
    intro p
    rw [figLoop, figLoop.eq_1 fl files nc e txt]
    simp only [h1, if_false, h2, and_self, dif_pos]
    have := ih p
    by_cases hc : i < wrapInt (e - 1)
    · simp only [txt2, txt1, hc, dif_pos, if_true] at this ⊢
      rw [← this]
      simp [String.append_assoc]
    · simp only [txt2, txt1, hc, dif_neg, if_false, not_false_eq_true] at this ⊢
      rw [← this]
      simp [String.append_assoc]
  | case3 txt i h1 h2 =>
    intro p
    rw [figLoop, figLoop.eq_1 fl files nc e txt]
    simp [h1, h2]

theorem capLoop_frame (titles : List String) (e : Int)
    (txt : String) (i : Int) : ∀ p : String,
      capLoop titles e (p ++ txt) i =
        (capLoop titles e txt i).map (fun x => (p ++ x.1, x.2)) := by
  induction txt, i using capLoop.induct titles e with
  | case1 txt =>
    intro p
    rw [capLoop, capLoop.eq_1 titles e txt]
    simp
  | case2 txt i h1 h2 txt1 txt2 ih =>
    intro p
    rw [capLoop, capLoop.eq_1 titles e txt]
    simp only [h1, if_false, h2, and_self, dif_pos]
    have := ih p
    by_cases hc : i < wrapInt (e - 1)
    · simp only [txt2, txt1, hc, dif_pos, if_true] at this ⊢
      rw [← this]
      simp [String.append_assoc]
    · simp only [txt2, txt1, hc, dif_neg, if_false, not_false_eq_true] at this ⊢
      rw [← this]
      simp [String.append_assoc]
  | case3 txt i h1 h2 =>
    intro p
    rw [capLoop, capLoop.eq_1 titles e txt]
    simp [h1, h2]

theorem rowLoop_frame {F : Type} (fl : Float64Ops F) (files titles : List String)
    (nc nrows rem : Int) (j : Int) (s : GridState) : ∀ p : String,
      rowLoop fl files titles nc nrows rem j { txt := p ++ s.txt, i := s.i, ii := s.ii } =
        (rowLoop fl files titles nc nrows rem j s).map
          (fun q => { txt := p ++ q.txt, i := q.i, ii := q.ii }) := by
  induction j, s using rowLoop.induct fl files titles nc nrows rem with
  | case1 j s hj endofrow hfig =>
    intro p
    have he : (if j = wrapInt (nrows - 1) ∧ rem ≠ 0 then wrapInt (s.i + rem)
        else wrapInt (s.i + nc)) = endofrow := rfl
    rw [rowLoop, rowLoop.eq_1 fl files titles nc nrows rem j s]
    simp only [hj, if_true, he, figLoop_frame fl files nc endofrow s.txt s.i p, hfig,
      Option.map_none']
  | case2 j s hj endofrow t1 i1 hfig hcap =>
    intro p
    have he : (if j = wrapInt (nrows - 1) ∧ rem ≠ 0 then wrapInt (s.i + rem)
        else wrapInt (s.i + nc)) = endofrow := rfl
    have h2 := capLoop_frame titles endofrow (t1 ++ " \\\\\n") s.ii p
    rw [← String.append_assoc] at h2
    rw [rowLoop, rowLoop.eq_1 fl files titles nc nrows rem j s]
    simp only [hj, if_true, he, figLoop_frame fl files nc endofrow s.txt s.i p, hfig,
      Option.map_some', h2, hcap, Option.map_none']
  | case3 j s hj endofrow t1 i1 hfig t2 ii1 hcap ih =>
    intro p
    have he : (if j = wrapInt (nrows - 1) ∧ rem ≠ 0 then wrapInt (s.i + rem)
        else wrapInt (s.i + nc)) = endofrow := rfl
    have h2 := capLoop_frame titles endofrow (t1 ++ " \\\\\n") s.ii p
    rw [← String.append_assoc] at h2
    rw [rowLoop, rowLoop.eq_1 fl files titles nc nrows rem j s]
    simp only [hj, if_true, he, figLoop_frame fl files nc endofrow s.txt s.i p, hfig,
      Option.map_some', h2, hcap]
    have h3 := ih p
    simp only [String.append_assoc] at h3 ⊢
    exact h3
  | case4 j s hj =>
    intro p
    rw [rowLoop, rowLoop.eq_1 fl files titles nc nrows rem j s]
    simp [hj]

theorem legendLoop_eq (legendFiles : List String) :
    ∀ txt : String, legendLoop legendFiles txt = txt ++ concatAll (legendFiles.map legendLine) := by
  induction legendFiles with
  | nil => intro txt; simp [legendLoop, concatAll]
  | cons l ls ih =>
    intro txt
    have := ih (txt ++ legendLine l)
    simp only [legendLoop, List.foldl_cons, List.map_cons, concatAll] at this ⊢
    rw [String.append_assoc] at this
    exact this

theorem specRows_eq (n nc : Nat) (hnc : 1 ≤ nc) :
    specRows n nc = if n % nc = 0 then n / nc else n / nc + 1 := by
  have hdm : nc * (n / nc) + n % nc = n := Nat.div_add_mod n nc
  have hr : n % nc < nc := Nat.mod_lt _ (by omega)
  unfold specRows
  by_cases hz : n % nc = 0
  · simp only [hz, if_true]
    apply Nat.div_eq_of_lt_le
    · rw [Nat.mul_comm]; omega
    · rw [Nat.succ_mul, Nat.mul_comm]; omega
  · simp only [hz, if_false]
    apply Nat.div_eq_of_lt_le
    · rw [Nat.add_mul, Nat.mul_comm]; omega
    · rw [Nat.succ_mul, Nat.add_mul, Nat.mul_comm]; omega

/-- The rows cover all figures. -/
theorem specRows_mul_ge (n nc : Nat) (hnc : 1 ≤ nc) : n ≤ specRows n nc * nc := by
  have hdm : nc * (n / nc) + n % nc = n := Nat.div_add_mod n nc
  have hr : n % nc < nc := Nat.mod_lt _ (by omega)
  rw [specRows_eq n nc hnc]
  by_cases hz : n % nc = 0
  · simp only [hz, if_true]
    rw [Nat.mul_comm]; omega
  · simp only [hz, if_false]
    rw [Nat.add_mul, Nat.mul_comm]; omega

/-- Row `j` starts inside the figure list and ends where row `j + 1` starts,
or at the last figure. -/
theorem specRow_bounds (n nc j : Nat) (hnc : 1 ≤ nc) (hj : j < specRows n nc) :
    j * nc ≤ n ∧ j * nc + specRowWidth n nc j = min ((j + 1) * nc) n := by
  have hdm : nc * (n / nc) + n % nc = n := Nat.div_add_mod n nc
  have hr : n % nc < nc := Nat.mod_lt _ (by omega)
  have hR := specRows_eq n nc hnc
  have hs : (j + 1) * nc = j * nc + nc := Nat.succ_mul j nc
  unfold specRowWidth
  by_cases hz : n % nc = 0
  · simp only [hz, if_true] at hR
    have h1 : (j + 1) * nc ≤ n / nc * nc := Nat.mul_le_mul_right nc (by omega)
    rw [Nat.mul_comm (n / nc)] at h1
    simp only [hz, ne_eq, not_true_eq_false, and_false, if_false]
    omega
  · simp only [hz, if_false] at hR
    by_cases hl : j + 1 = specRows n nc
    · have hjq : j = n / nc := by omega
      have h1 : j * nc = nc * (n / nc) := by rw [hjq, Nat.mul_comm]
      rw [if_pos ⟨hl, hz⟩]
      omega
    · have h1 : (j + 1) * nc ≤ n / nc * nc := Nat.mul_le_mul_right nc (by omega)
      rw [Nat.mul_comm (n / nc)] at h1
      rw [if_neg (fun h => hl h.1)]
      omega

theorem specRows_le (n nc : Nat) (hnc : 1 ≤ nc) : specRows n nc ≤ n + 1 := by
  have h := Nat.div_le_self n nc
  rw [specRows_eq n nc hnc]
  split_ifs <;> omega

/-- The row loop, entered at row `j` with both indices at the start of that
row, appends the rows `j, j+1, ...` of the specification's grid and leaves
both indices at the number of figures. -/
theorem rowLoop_spec {F : Type} (fl : Float64Ops F) (files titles : List String) (nc : Nat)
    (hnc : 1 ≤ nc) (hn : files.length ≤ 26) (ht : files.length ≤ titles.length) (m : Nat) :
    ∀ (j : Nat) (txt : String), j + m = specRows files.length nc →
      rowLoop fl files titles (nc : Int) ((specRows files.length nc : Nat) : Int)
          ((files.length % nc : Nat) : Int) (j : Int)
          { txt := txt, i := ((min (j * nc) files.length : Nat) : Int),
            ii := ((min (j * nc) files.length : Nat) : Int) } =
        some { txt := txt ++ specGridText (figOf fl files nc) (capOf titles)
                 ((List.range' j m).map (specRowIndices files.length nc)),
               i := (files.length : Int), ii := (files.length : Int) } := by
  induction m with
  | zero =>
    intro j txt hj
    have hge := specRows_mul_ge files.length nc hnc
    have hmin : min (j * nc) files.length = files.length := by
      have : j = specRows files.length nc := by omega
      rw [this]; exact Nat.min_eq_right hge
    rw [rowLoop, hmin]
    have hlt : ¬ ((j : Int) < ((specRows files.length nc : Nat) : Int)) := by omega
    simp [hlt, specGridText, concatAll]
  | succ m ih =>
    intro j txt hj
    have hjR : j < specRows files.length nc := by omega
    obtain ⟨hb1, hb2⟩ := specRow_bounds files.length nc j hnc hjR
    have hRle := specRows_le files.length nc hnc
    have hmin : min (j * nc) files.length = j * nc := Nat.min_eq_left hb1
    have hlt : (j : Int) < ((specRows files.length nc : Nat) : Int) := by omega
    have hwle : j * nc + specRowWidth files.length nc j ≤ files.length := by
      rw [hb2]; exact Nat.min_le_right _ _
    have hend : (if (j : Int) = wrapInt (((specRows files.length nc : Nat) : Int) - 1) ∧
          ((files.length % nc : Nat) : Int) ≠ 0
        then wrapInt (((j * nc : Nat) : Int) + ((files.length % nc : Nat) : Int))
        else wrapInt (((j * nc : Nat) : Int) + (nc : Int))) =
        ((j * nc + specRowWidth files.length nc j : Nat) : Int) := by
      rw [wrapInt_of_range _ (by omega) (by omega)]
      unfold specRowWidth at hwle ⊢
      by_cases hc : j + 1 = specRows files.length nc ∧ files.length % nc ≠ 0
      · rw [if_pos hc] at hwle ⊢
        rw [if_pos ⟨by omega, by omega⟩, wrapInt_of_range _ (by omega) (by omega)]
        omega
      · rw [if_neg hc] at hwle ⊢
        rw [if_neg (by omega), wrapInt_of_range _ (by omega) (by omega)]
        omega
    have hfig := figLoop_spec fl files (nc : Int) (specRowWidth files.length nc j) (j * nc) txt
      hwle (by omega)
    rw [rowLoop, hmin]
    simp only [hlt, if_true, hend, hfig]
    have hcap := capLoop_spec titles (specRowWidth files.length nc j) (j * nc)
      (txt ++ joinCells " &\n" ((List.range' (j * nc) (specRowWidth files.length nc j)).map
        (figOf fl files nc)) ++ " \\\\\n") (by omega) (by omega)
    simp only [hcap]
    have e1 : ((j : Int) + 1) = ((j + 1 : Nat) : Int) := by omega
    rw [e1, hb2, ih (j + 1) _ (by omega), List.range'_succ, List.map_cons]
    simp only [specGridText, List.map_cons, concatAll, specRowText, specRowIndices,
      String.append_assoc]

theorem numrows_nat (n nc : Nat) (hnc : 1 ≤ nc) (hn : n < 2 ^ 53) :
    numrows (n : Int) (nc : Int) =
      some (((specRows n nc : Nat) : Int), ((n % nc : Nat) : Int)) := by
  rw [numrows_eq (n : Int) (nc : Int) (by omega) (by omega) (by omega), specRows_eq n nc hnc]
  have h1 : ((n : Int) % (nc : Int)) = ((n % nc : Nat) : Int) := (Int.natCast_mod n nc).symm
  have h2 : ((n : Int) / (nc : Int)) = ((n / nc : Nat) : Int) := (Int.natCast_div n nc).symm
  rw [h1, h2]
  by_cases hz : n % nc = 0
  · have hz2 : ((n % nc : Nat) : Int) = 0 := by omega
    rw [if_pos hz2, if_pos hz]
  · have hz2 : ¬ ((n % nc : Nat) : Int) = 0 := by omega
    rw [if_neg hz2, if_neg hz]
    push_cast
    rfl

theorem String_join_singleton (s : String) : String.join [s] = s := by
  simp [String.join]

theorem stringsRepeat_c (maxAlloc nc : Nat) (hnc : 1 ≤ nc) (h63 : (nc : Int) < 2 ^ 63)
    (hm : nc ≤ maxAlloc) :
    stringsRepeat maxAlloc "c" (nc : Int) = some (String.join (List.replicate nc "c")) := by
  have hb : ("c" : String).utf8ByteSize = 1 := by decide
  have h0 : ¬ ((nc : Int) = 0) := by omega
  have h1 : ¬ ((nc : Int) < 0) := by omega
  have h2 : ¬ ((2 : Int) ^ 63 ≤ ((1 : Nat) : Int) * (nc : Int)) := by omega
  have h3 : ¬ ((maxAlloc : Int) < ((1 : Nat) : Int) * (nc : Int)) := by omega
  by_cases h4 : (nc : Int) = 1
  · have : nc = 1 := by omega
    subst this
    simp [stringsRepeat, String_join_singleton]
  · simp only [stringsRepeat, hb, h0, h1, h2, h3, h4, if_false, Int.toNat_ofNat]

/-- The text of a completed `MapFigure` call with at most 26 figures and at
least as many titles: header, the grid of the specification, the legend
lines, the overall caption. -/
theorem MapFigure_spec {F : Type} (maxAlloc : Nat) (fl : Float64Ops F) (r : Report)
    (files titles legends : List String) (caption : String) (nc : Nat)
    (hnc : 1 ≤ nc) (h63 : (nc : Int) < 2 ^ 63) (hm : nc ≤ maxAlloc) (hn : files.length ≤ 26)
    (ht : files.length ≤ titles.length) :
    MapFigure maxAlloc fl r files titles legends caption (nc : Int) =
      some { r with txt := r.txt ++
        specFigureText fl files titles legends caption r.StandAlone nc } := by
  have hrow := rowLoop_spec fl files titles nc hnc hn ht (specRows files.length nc) 0
    (r.txt ++ gridHeader nc) (by omega)
  simp only [Nat.zero_mul, Nat.zero_min, Nat.cast_zero] at hrow
  unfold MapFigure
  simp only [stringsRepeat_c maxAlloc nc hnc h63 hm, numrows_nat files.length nc hnc (by omega)]
  have hh : r.txt ++ ("\n\\begin\x7bfigure\x7d[H]\n\\begin\x7bcenter\x7d\n"
      ++ ("\\begin\x7btabular\x7d\x7b" ++ String.join (List.replicate nc "c") ++ "\x7d\n")) =
      r.txt ++ gridHeader nc := rfl
  rw [hh, hrow]
  simp only [legendLoop_eq, specFigureText, specGrid, List.range_eq_range', captionText]
  cases r.StandAlone <;> simp [String.append_assoc]

theorem specGrid_prefix_flatten (n nc : Nat) (hnc : 1 ≤ nc) (m : Nat) :
    m ≤ specRows n nc →
      ((List.range m).map (specRowIndices n nc)).flatten = List.range (min (m * nc) n) := by
  induction m with
  | zero => intro _; simp
  | succ m ih =>
    intro hm
    obtain ⟨hb1, hb2⟩ := specRow_bounds n nc m hnc (by omega)
    rw [List.range_succ, List.map_append, List.flatten_append, ih (by omega),
      Nat.min_eq_left hb1, ← hb2]
    simp only [List.map_cons, List.map_nil, List.flatten_cons, List.flatten_nil,
      List.append_nil, specRowIndices, List.range_eq_range']
    have := List.range'_append_1 0 (m * nc) (specRowWidth n nc m)
    rw [Nat.zero_add] at this
    rw [this, Nat.add_comm]

/-- The rows of the grid, read top to bottom and left to right, are the
figure indices `0, 1, ..., n-1`: every index is in exactly one row, once. -/
theorem specGrid_flatten (n nc : Nat) (hnc : 1 ≤ nc) :
    (specGrid n nc).flatten = List.range n := by
  unfold specGrid
  rw [specGrid_prefix_flatten n nc hnc (specRows n nc) (Nat.le_refl _),
    Nat.min_eq_right (specRows_mul_ge n nc hnc)]

theorem specGrid_length (n nc : Nat) : (specGrid n nc).length = specRows n nc := by
  simp [specGrid]

theorem specGrid_row (n nc j : Nat) (hj : j < specRows n nc) :
    (specGrid n nc)[j]? = some (List.range' (j * nc) (specRowWidth n nc j)) := by
  simp [specGrid, List.getElem?_map, List.getElem?_range hj, specRowIndices]

theorem capOf_eq (titles : List String) (k : Nat) (hk : k < titles.length) :
    ∃ T : String, titles[k]? = some T ∧
      capOf titles k = "(" ++ String.singleton (Char.ofNat ('A'.toNat + k)) ++ ") " ++ T := by
  have hg : titles.getD k "" = titles[k] := by simp [List.getElem?_eq_getElem hk]
  exact ⟨titles[k], List.getElem?_eq_getElem hk, by simp only [capOf, specLetter, hg]⟩

theorem figOf_eq {F : Type} (fl : Float64Ops F) (files : List String) (nc : Int) (k : Nat)
    (hk : k < files.length) :
    ∃ f : String, files[k]? = some f ∧
      figOf fl files nc k =
        "\\includegraphics[width=" ++ fl.fmtF (fl.recip nc) ++ "\\textwidth]\x7b" ++ f ++ "\x7d" := by
  have hg : files.getD k "" = files[k] := by simp [List.getElem?_eq_getElem hk]
  exact ⟨files[k], List.getElem?_eq_getElem hk, by simp only [figOf, hg]⟩

/-- Claim C2 fails for a column count that `strings.Repeat` cannot allocate:
with the allocation limit `2^48` and `ncolumns = 2^62`, `MapFigure` panics
before it emits any figure. -/
theorem MapFigure_rows_huge_ncolumns :
    sevenTitles.length = sevenFiles.length ∧ sevenFiles.length ≤ 26 ∧
    (1 : Int) ≤ 2 ^ 62 ∧ (2 : Int) ^ 62 < 2 ^ 63 ∧
    MapFigure (2 ^ 48) (constOps "0.000000") (NewReport "f") sevenFiles sevenTitles
      ["legend.png"] "cap" (2 ^ 62) = none := by
  refine ⟨by decide, by decide, by decide, by decide, ?_⟩
  rfl

/-- Claim C2 as amended: with equally many files and titles, at most 26 of
them, and `ncolumns ≥ 1` not above the allocation limit of `strings.Repeat`,
`MapFigure` completes and appends the grid whose row `j` (for `0 ≤ j < nrows`,
`(nrows, remainder) = numrows(n, ncolumns)`) holds the cells of the figures
`j*ncolumns, ..., j*ncolumns + rowWidth - 1` in increasing order, where
`rowWidth` is `remainder` in the last row when `remainder ≠ 0` and `ncolumns`
otherwise; the rows together list every figure index `0..n-1` exactly once,
and the cell of index `k` is the `\includegraphics` of file `k`. -/
theorem MapFigure_rows_row_major {F : Type} (maxAlloc : Nat) (fl : Float64Ops F) (r : Report)
    (mapFileNames Titles legendFiles : List String) (caption : String) (ncolumns : Int)
    (hlen : Titles.length = mapFileNames.length) (h26 : mapFileNames.length ≤ 26)
    (h1 : 1 ≤ ncolumns) (h63 : ncolumns < 2 ^ 63) (hm : ncolumns ≤ (maxAlloc : Int)) :
    ∃ nrows remainder : Int,
      numrows (mapFileNames.length : Int) ncolumns = some (nrows, remainder) ∧
      MapFigure maxAlloc fl r mapFileNames Titles legendFiles caption ncolumns =
        some { r with txt := r.txt ++ (gridHeader ncolumns.toNat ++
          (concatAll ((specGrid mapFileNames.length ncolumns.toNat).map (fun idxs =>
              joinCells " &\n" (idxs.map (figOf fl mapFileNames ncolumns)) ++ " \\\\\n" ++
                (joinCells " &\n" (idxs.map (capOf Titles)) ++ " \\\\\n"))) ++
            ("\\end\x7btabular\x7d\n" ++ (concatAll (legendFiles.map legendLine) ++
              ("\\\\\n" ++ captionText r.StandAlone caption))))) } ∧
      ((specGrid mapFileNames.length ncolumns.toNat).length : Int) = nrows ∧
      (∀ j : Nat, (j : Int) < nrows →
        (specGrid mapFileNames.length ncolumns.toNat)[j]? =
          some (List.range' (j * ncolumns.toNat)
            (if (j : Int) = nrows - 1 ∧ remainder ≠ 0 then remainder.toNat
             else ncolumns.toNat))) ∧
      (specGrid mapFileNames.length ncolumns.toNat).flatten = List.range mapFileNames.length ∧
      (∀ k : Nat, k < mapFileNames.length → ∃ f : String, mapFileNames[k]? = some f ∧
        figOf fl mapFileNames ncolumns k =
          "\\includegraphics[width=" ++ fl.fmtF (fl.recip ncolumns) ++ "\\textwidth]\x7b" ++ f
            ++ "\x7d") := by
  obtain ⟨nc, rfl⟩ : ∃ nc : Nat, ncolumns = (nc : Int) := ⟨ncolumns.toNat, by omega⟩
  have hnc : 1 ≤ nc := by omega
  simp only [Int.toNat_ofNat]
  refine ⟨_, _, numrows_nat mapFileNames.length nc hnc (by omega),
    MapFigure_spec maxAlloc fl r mapFileNames Titles legendFiles caption nc hnc h63 (by omega)
      h26 (by omega),
    by rw [specGrid_length], ?_, specGrid_flatten _ _ hnc, ?_⟩
  · intro j hj
    rw [specGrid_row _ _ _ (by omega)]
    unfold specRowWidth
    by_cases hc : j + 1 = specRows mapFileNames.length nc ∧ mapFileNames.length % nc ≠ 0
    · rw [if_pos hc, if_pos ⟨by omega, by omega⟩, Int.toNat_ofNat]
    · rw [if_neg hc, if_neg (by omega)]
  · intro k hk
    exact figOf_eq fl mapFileNames (nc : Int) k hk

/-- Claim C3 fails for a column count that `strings.Repeat` cannot allocate:
with the allocation limit `2^48` and `ncolumns = 2^62`, `MapFigure` panics
before it emits any sub-caption. -/
theorem MapFigure_captions_huge_ncolumns :
    ["t1"].length = ["m1.png"].length ∧ ["m1.png"].length ≤ 26 ∧
    (1 : Int) ≤ 2 ^ 62 ∧ (2 : Int) ^ 62 < 2 ^ 63 ∧
    stringsRepeat (2 ^ 48) "c" (2 ^ 62) = none ∧
    MapFigure (2 ^ 48) (constOps "0.000000") (NewReport "f") ["m1.png"] ["t1"] [] "cap"
      (2 ^ 62) = none := by
  refine ⟨by decide, by decide, by decide, by decide, ?_, ?_⟩ <;> rfl

/-- Claim C3 as amended: with equally many files and titles, at most 26 of
them, and `ncolumns ≥ 1` not above the allocation limit of `strings.Repeat`,
`MapFigure` completes; each row of the appended grid has the sub-captions of
exactly the indices of its figures, in the same order; the rows list every
index `0..n-1` once, so there is one sub-caption per figure; and the
sub-caption of index `k` is `(L) T` with `L` the `k`-th letter after `A`
(counted from 0) and `T = Titles[k]`. -/
theorem MapFigure_captions_labelled {F : Type} (maxAlloc : Nat) (fl : Float64Ops F) (r : Report)
    (mapFileNames Titles legendFiles : List String) (caption : String) (ncolumns : Int)
    (hlen : Titles.length = mapFileNames.length) (h26 : mapFileNames.length ≤ 26)
    (h1 : 1 ≤ ncolumns) (h63 : ncolumns < 2 ^ 63) (hm : ncolumns ≤ (maxAlloc : Int)) :
    (∃ r1 : Report,
      MapFigure maxAlloc fl r mapFileNames Titles legendFiles caption ncolumns = some r1 ∧
      r1.txt = r.txt ++ (gridHeader ncolumns.toNat ++
        (concatAll ((specGrid mapFileNames.length ncolumns.toNat).map (fun idxs =>
            joinCells " &\n" (idxs.map (figOf fl mapFileNames ncolumns)) ++ " \\\\\n" ++
              (joinCells " &\n" (idxs.map (capOf Titles)) ++ " \\\\\n"))) ++
          ("\\end\x7btabular\x7d\n" ++ (concatAll (legendFiles.map legendLine) ++
            ("\\\\\n" ++ captionText r.StandAlone caption)))))) ∧
      (specGrid mapFileNames.length ncolumns.toNat).flatten = List.range mapFileNames.length ∧
      ((specGrid mapFileNames.length ncolumns.toNat).flatten.map (capOf Titles)).length
        = mapFileNames.length ∧
      (∀ k : Nat, k < mapFileNames.length → ∃ T : String, Titles[k]? = some T ∧
        ((specGrid mapFileNames.length ncolumns.toNat).flatten.map (capOf Titles))[k]? =
          some ("(" ++ String.singleton (Char.ofNat ('A'.toNat + k)) ++ ") " ++ T)) := by
  obtain ⟨nc, rfl⟩ : ∃ nc : Nat, ncolumns = (nc : Int) := ⟨ncolumns.toNat, by omega⟩
  have hnc : 1 ≤ nc := by omega
  simp only [Int.toNat_ofNat]
  refine ⟨⟨_, MapFigure_spec maxAlloc fl r mapFileNames Titles legendFiles caption nc hnc h63
    (by omega) h26 (by omega), rfl⟩, specGrid_flatten _ _ hnc, ?_, ?_⟩
  · rw [specGrid_flatten _ _ hnc]
    simp
  · intro k hk
    obtain ⟨T, hT, hc⟩ := capOf_eq Titles k (by omega)
    refine ⟨T, hT, ?_⟩
    rw [specGrid_flatten _ _ hnc, List.getElem?_map, List.getElem?_range hk]
    simp only [Option.map_some', hc]

/-- What a `MapFigure` call does, with the grid isolated: the call completes
exactly when `strings.Repeat`, `numrows` and the row loop complete, and the
row loop's text is the same from any starting text. -/
theorem MapFigure_eq {F : Type} (maxAlloc : Nat) (fl : Float64Ops F) (r : Report)
    (files titles legends : List String) (caption : String) (nc : Int) :
    MapFigure maxAlloc fl r files titles legends caption nc =
      (stringsRepeat maxAlloc "c" nc).bind fun cs =>
        (numrows (files.length : Int) nc).bind fun p =>
          (rowLoop fl files titles nc p.1 p.2 0 { txt := "", i := 0, ii := 0 }).map fun g =>
            { r with txt := r.txt ++ (("\n\\begin\x7bfigure\x7d[H]\n\\begin\x7bcenter\x7d\n"
                ++ ("\\begin\x7btabular\x7d\x7b" ++ cs ++ "\x7d\n")) ++
              (g.txt ++ ("\\end\x7btabular\x7d\n" ++ (concatAll (legends.map legendLine) ++
                ("\\\\\n" ++ captionText r.StandAlone caption))))) } := by
  unfold MapFigure
  cases hrep : stringsRepeat maxAlloc "c" nc with
  | none => rfl
  | some cs =>
    cases hnum : numrows (files.length : Int) nc with
    | none => rfl
    | some p =>
      obtain ⟨nrows, rem⟩ := p
      have hf := rowLoop_frame fl files titles nc nrows rem 0 { txt := "", i := 0, ii := 0 }
        (r.txt ++ ("\n\\begin\x7bfigure\x7d[H]\n\\begin\x7bcenter\x7d\n"
                ++ ("\\begin\x7btabular\x7d\x7b" ++ cs ++ "\x7d\n")))
      simp only [String.append_empty] at hf
      simp only [Option.some_bind, hf]
      cases hrow : rowLoop fl files titles nc nrows rem 0 { txt := "", i := 0, ii := 0 } with
      | none => rfl
      | some g =>
        simp only [Option.map_some', legendLoop_eq, captionText]
        cases r.StandAlone <;> simp [String.append_assoc]

theorem stringsRepeat_some (maxAlloc : Nat) (s : String) (count : Int) (cs : String)
    (h : stringsRepeat maxAlloc s count = some cs) :
    0 ≤ count ∧ cs = String.join (List.replicate count.toNat s) := by
  unfold stringsRepeat at h
  split_ifs at h with h0 h1 h2 h3 h4
  · simp only [Option.some.injEq] at h
    subst h0
    exact ⟨by omega, by rw [← h]; rfl⟩
  · simp only [Option.some.injEq] at h
    subst h1
    exact ⟨by omega, by rw [← h]; exact (String_join_singleton s).symm⟩
  · simp only [Option.some.injEq] at h
    exact ⟨by omega, h.symm⟩

/-- Claim C6: the text a completed `MapFigure` call appends is, in this
order, the header with the tabular grid (the text of the row loop), the end of
the tabular, one legend image line per element of `legendFiles` in list
order, a line break, and one overall caption, which is `\caption*{caption}`
when `StandAlone` is true and `\caption{caption}` when it is false; the text
ends with `\end{figure}`. -/
theorem MapFigure_text_order {F : Type} (maxAlloc : Nat) (fl : Float64Ops F) (r r1 : Report)
    (mapFileNames Titles legendFiles : List String) (caption : String) (ncolumns : Int)
    (h : MapFigure maxAlloc fl r mapFileNames Titles legendFiles caption ncolumns = some r1) :
    ∃ (nrows remainder : Int) (g : GridState),
      numrows (mapFileNames.length : Int) ncolumns = some (nrows, remainder) ∧
      rowLoop fl mapFileNames Titles ncolumns nrows remainder 0 { txt := "", i := 0, ii := 0 }
        = some g ∧
      r1.txt = r.txt ++ (gridHeader ncolumns.toNat ++ (g.txt ++ ("\\end\x7btabular\x7d\n" ++
        (concatAll (legendFiles.map legendLine) ++ ("\\\\\n" ++
          (if r.StandAlone = true then
             "\\end\x7bcenter\x7d\n\\caption*\x7b" ++ caption ++ "\x7d\n\\end\x7bfigure\x7d\n"
           else
             "\\end\x7bcenter\x7d\n\\caption\x7b" ++ caption ++ "\x7d\n\\end\x7bfigure\x7d\n")))))) ∧
      r1.StandAlone = r.StandAlone := by
  rw [MapFigure_eq] at h
  cases hrep : stringsRepeat maxAlloc "c" ncolumns with
  | none => simp [hrep] at h
  | some cs =>
    cases hnum : numrows (mapFileNames.length : Int) ncolumns with
    | none => simp [hrep, hnum] at h
    | some p =>
      obtain ⟨nrows, rem⟩ := p
      cases hrow : rowLoop fl mapFileNames Titles ncolumns nrows rem 0
          { txt := "", i := 0, ii := 0 } with
      | none => simp [hrep, hnum, hrow] at h
      | some g =>
        simp only [hrep, hnum, hrow, Option.some_bind, Option.map_some',
          Option.some.injEq] at h
        obtain ⟨_, hcs⟩ := stringsRepeat_some maxAlloc "c" ncolumns cs hrep
        refine ⟨nrows, rem, g, rfl, hrow, ?_, ?_⟩
        · rw [← h, hcs]
          rfl
        · rw [← h]

/-- Claim C10 fails for a column count that `strings.Repeat` cannot allocate:
with the allocation limit `2^48`, two files, two titles and `ncolumns = 2^62`,
`MapFigure` panics in `strings.Repeat`; the loops are never entered and do
not stop with `i = ii = len(mapFileNames)`. -/
theorem MapFigure_huge_ncolumns_panics :
    ["t1", "t2"].length = ["m1.png", "m2.png"].length ∧ ["m1.png", "m2.png"].length ≤ 26 ∧
    (1 : Int) ≤ 2 ^ 62 ∧ (2 : Int) ^ 62 < 2 ^ 63 ∧
    stringsRepeat (2 ^ 48) "c" (2 ^ 62) = none ∧
    MapFigure (2 ^ 48) (constOps "0.000000") (NewReport "f") ["m1.png", "m2.png"] ["t1", "t2"] []
      "cap" (2 ^ 62) = none := by
  refine ⟨by decide, by decide, by decide, by decide, ?_, ?_⟩ <;> rfl

/-- Claim C10 as amended: with equally many files and titles, at most 26 of
them, and `ncolumns ≥ 1`, `numrows` returns and the row loop of `MapFigure`,
from any text, completes without a panic (no index is out of range) and ends
with `i = ii = len(mapFileNames)`; `MapFigure` panics exactly when
`strings.Repeat("c", ncolumns)` does, which is before the loops, and it
returns whenever `ncolumns` is not above the allocation limit. -/
theorem MapFigure_indices_in_range {F : Type} (fl : Float64Ops F)
    (mapFileNames Titles : List String) (ncolumns : Int)
    (hlen : Titles.length = mapFileNames.length) (h26 : mapFileNames.length ≤ 26)
    (h1 : 1 ≤ ncolumns) (h63 : ncolumns < 2 ^ 63) :
    ∃ nrows remainder : Int,
      numrows (mapFileNames.length : Int) ncolumns = some (nrows, remainder) ∧
      (∀ txt0 : String, ∃ s : GridState,
        rowLoop fl mapFileNames Titles ncolumns nrows remainder 0
          { txt := txt0, i := 0, ii := 0 } = some s ∧
        s.i = (mapFileNames.length : Int) ∧ s.ii = (mapFileNames.length : Int)) ∧
      (∀ (maxAlloc : Nat) (r : Report) (legendFiles : List String) (caption : String),
        (MapFigure maxAlloc fl r mapFileNames Titles legendFiles caption ncolumns = none ↔
          stringsRepeat maxAlloc "c" ncolumns = none) ∧
        (ncolumns ≤ (maxAlloc : Int) →
          ∃ r1 : Report,
            MapFigure maxAlloc fl r mapFileNames Titles legendFiles caption ncolumns
              = some r1)) := by
  obtain ⟨nc, rfl⟩ : ∃ nc : Nat, ncolumns = (nc : Int) := ⟨ncolumns.toNat, by omega⟩
  have hnc : 1 ≤ nc := by omega
  have hrow : ∀ txt0 : String, _ := fun txt0 =>
    rowLoop_spec fl mapFileNames Titles nc hnc h26 (by omega)
      (specRows mapFileNames.length nc) 0 txt0 (by omega)
  simp only [Nat.zero_mul, Nat.zero_min, Nat.cast_zero] at hrow
  have hnum := numrows_nat mapFileNames.length nc hnc (by omega)
  refine ⟨_, _, hnum, fun txt0 => ⟨_, hrow txt0, rfl, rfl⟩, ?_⟩
  intro maxAlloc r legendFiles caption
  refine ⟨?_, fun hm => ⟨_, MapFigure_spec maxAlloc fl r mapFileNames Titles legendFiles caption
    nc hnc h63 (by omega) h26 (by omega)⟩⟩
  rw [MapFigure_eq, hnum]
  simp only [Option.some_bind, hrow "", Option.map_some']
  cases stringsRepeat maxAlloc "c" (nc : Int) <;> simp

theorem Write_report (w : World) (r : Report) :
    (Write w r).report = { r with txt := r.txt ++ "\n\\end\x7bdocument\x7d\n" } := by
  unfold Write ConvertToPng
  cases w.createErr <;> cases w.writeErr <;> cases w.convertErr <;> simp <;> split_ifs <;> rfl

theorem isPrefixOf_append_self (sub b : List Char) : sub.isPrefixOf (sub ++ b) = true := by
  induction sub with
  | nil => simp [List.isPrefixOf]
  | cons c cs ih => simp [List.isPrefixOf, ih]

theorem indexFrom_of_infix (sub b : List Char) (a : List Char) :
    ∀ k : Nat, (k : Int) ≤ indexFrom sub (a ++ (sub ++ b)) k := by
  induction a with
  | nil =>
    intro k
    have hp : sub.isPrefixOf (sub ++ b) = true := isPrefixOf_append_self sub b
    rw [List.nil_append]
    cases hs : sub ++ b with
    | nil => rw [hs] at hp; simp [indexFrom, hp]
    | cons c cs => rw [hs] at hp; simp [indexFrom, hp]
  | cons x a ih =>
    intro k
    rw [List.cons_append]
    simp only [indexFrom]
    split_ifs
    · exact Int.le_refl _
    · have := ih (k + 1)
      omega

/-- An output that contains `sub` has an index of `sub` different from `-1`. -/
theorem stringsIndex_of_infix (a sub b : String) :
    stringsIndex (a ++ sub ++ b) sub ≠ -1 := by
  have h := indexFrom_of_infix sub.data b.data a.data 0
  unfold stringsIndex
  rw [String.data_append, String.data_append, List.append_assoc]
  omega

/-- Claim C9: when the file was created and written, and the combined output
of the typesetting process contains "Emergency", `Write` panics with that
output as the panic value, whatever the error (exit status) of the process
and whatever `PNGconvert`; the `convert` process is not run. -/
theorem Write_emergency_panics (w : World) (r : Report) (a b : String)
    (hc : w.createErr = none) (hw : w.writeErr = none)
    (hout : w.xelatexOut = a ++ "Emergency" ++ b) :
    (Write w r).outcome = Outcome.panicked (Diag.text w.xelatexOut) ∧
      ∀ args : List String, Effect.run "convert" args ∉ (Write w r).effects := by
  have hidx : stringsIndex w.xelatexOut "Emergency" ≠ -1 := by
    rw [hout]; exact stringsIndex_of_infix a "Emergency" b
  refine ⟨?_, ?_⟩
  · unfold Write
    simp only [hc, hw, hidx, ne_eq, not_false_eq_true, if_true]
  · intro args
    unfold Write
    simp only [hc, hw, hidx, ne_eq, not_false_eq_true, if_true]
    simp

theorem Write_emergency_panics_witness :
    (quietWorld "! Emergency stop.").createErr = none ∧
    (quietWorld "! Emergency stop.").writeErr = none ∧
    (quietWorld "! Emergency stop.").xelatexOut = "! " ++ "Emergency" ++ " stop." ∧
    ((Write (quietWorld "! Emergency stop.") { NewReport "f" with PNGconvert := true }).outcome
        = Outcome.panicked (Diag.text (quietWorld "! Emergency stop.").xelatexOut) ∧
      ∀ args : List String, Effect.run "convert" args ∉
        (Write (quietWorld "! Emergency stop.") { NewReport "f" with PNGconvert := true }).effects) :=
  ⟨rfl, rfl, by decide,
    Write_emergency_panics (quietWorld "! Emergency stop.") { NewReport "f" with PNGconvert := true }
      "! " " stop." rfl rfl (by decide)⟩

/-- Claim C7 fails: on a report that `Write` has finalized (the call
returned), `Plot` is not an error; it appends its markup after
`\end{document}`. -/
theorem Plot_after_Write_appends :
    (Write (quietWorld "") (NewReport "f")).outcome = Outcome.returned ∧
    (Plot (Write (quietWorld "") (NewReport "f")).report "p.pdf" "c").txt =
      (NewReport "f").txt ++ "\n\\end\x7bdocument\x7d\n" ++
        "\\begin\x7bfigure\x7d[H]\n\\includegraphics\x7bp.pdf\x7d\n\\caption\x7bc\x7d\n\\end\x7bfigure\x7d\n" :=
  ⟨rfl, rfl⟩

/-- Claim C7 as amended: `Write` appends the closing `\end{document}` and
records nothing else in the report; a later `Plot` or `Animation` appends its
markup after the document's end, and a later `MapFigure` completes exactly
when the same call completes on an empty text, appending the same markup
after the document's end. -/
theorem ops_after_Write_append {F : Type} (maxAlloc : Nat) (fl : Float64Ops F) (w : World)
    (r : Report) :
    (Write w r).report.txt = r.txt ++ "\n\\end\x7bdocument\x7d\n" ∧
    (∀ filename caption : String,
      (Plot (Write w r).report filename caption).txt =
        (r.txt ++ "\n\\end\x7bdocument\x7d\n") ++
          (Plot { r with txt := "" } filename caption).txt) ∧
    (∀ (filebase : String) (numFrames : Int) (caption : String) (framesPerSec : Int),
      (Animation (Write w r).report filebase numFrames caption framesPerSec).txt =
        (r.txt ++ "\n\\end\x7bdocument\x7d\n") ++
          (Animation { r with txt := "" } filebase numFrames caption framesPerSec).txt) ∧
    (∀ (mapFileNames Titles legendFiles : List String) (caption : String) (ncolumns : Int),
      MapFigure maxAlloc fl (Write w r).report mapFileNames Titles legendFiles caption ncolumns =
        (MapFigure maxAlloc fl { r with txt := "" } mapFileNames Titles legendFiles caption
          ncolumns).map
          (fun q => { q with txt := (r.txt ++ "\n\\end\x7bdocument\x7d\n") ++ q.txt })) := by
  rw [Write_report]
  refine ⟨rfl, ?_, ?_, ?_⟩
  · intro filename caption
    simp [Plot]
  · intro filebase numFrames caption framesPerSec
    simp [Animation]
  · intro mapFileNames Titles legendFiles caption ncolumns
    rw [MapFigure_eq, MapFigure_eq]
    rcases h1 : stringsRepeat maxAlloc "c" ncolumns with _ | cs
    · rfl
    rcases h2 : numrows (mapFileNames.length : Int) ncolumns with _ | p
    · rfl
    rcases h3 : rowLoop fl mapFileNames Titles ncolumns p.1 p.2 0
      { txt := "", i := 0, ii := 0 } with _ | g
    · simp [h3]
    · simp [h3, String.append_assoc]

/-- Claim C4 fails on the code: for `numFrames = 10` the last-frame argument
that `Animation` writes is `%!i(int=0009)`, not `0009`, because `%04i` is not
a verb of package `fmt`. -/
theorem Animation_last_frame_text :
    (Animation (NewReport "f") "fr" 10 "cap" 15).txt =
      (NewReport "f").txt ++
        "\\begin\x7bfigure\x7d[H]\n\\animategraphics[width=\\textwidth]\x7b15\x7d\x7bfr\x7d\x7b0000\x7d\x7b%!i(int=0009)\x7d\n\\caption\x7bcap\x7d\n\\end\x7bfigure\x7d\n" :=
  rfl

/-- Claim C5 fails on the code: `Plot` on a report made by
`NewStandAloneReport` writes the numbered form `\caption{...}`. -/
theorem standalone_Plot_numbered_caption :
    (Plot (NewStandAloneReport (constOps "3.000000") "fig" () ()) "p.pdf" "cap").StandAlone = true ∧
    (Plot (NewStandAloneReport (constOps "3.000000") "fig" () ()) "p.pdf" "cap").txt =
      (NewStandAloneReport (constOps "3.000000") "fig" () ()).txt ++
        "\\begin\x7bfigure\x7d[H]\n\\includegraphics\x7bp.pdf\x7d\n\\caption\x7bcap\x7d\n\\end\x7bfigure\x7d\n" :=
  ⟨rfl, rfl⟩

theorem MapFigure_rows_row_major_witness :
    sevenTitles.length = sevenFiles.length ∧ sevenFiles.length ≤ 26 ∧
    (1 : Int) ≤ 3 ∧ (3 : Int) < 2 ^ 63 ∧ (3 : Int) ≤ ((2 ^ 48 : Nat) : Int) ∧
    (∃ nrows remainder : Int,
      numrows (sevenFiles.length : Int) (3 : Int) = some (nrows, remainder) ∧
      MapFigure (2 ^ 48) (constOps "0.333333") (NewReport "f") sevenFiles sevenTitles ["legend.png"] "cap" (3 : Int) =
        some { (NewReport "f") with txt := (NewReport "f").txt ++ (gridHeader (3 : Int).toNat ++
          (concatAll ((specGrid sevenFiles.length (3 : Int).toNat).map (fun idxs =>
              joinCells " &\n" (idxs.map (figOf (constOps "0.333333") sevenFiles (3 : Int))) ++ " \\\\\n" ++
                (joinCells " &\n" (idxs.map (capOf sevenTitles)) ++ " \\\\\n"))) ++
            ("\\end\x7btabular\x7d\n" ++ (concatAll (["legend.png"].map legendLine) ++
              ("\\\\\n" ++ captionText (NewReport "f").StandAlone "cap"))))) } ∧
      ((specGrid sevenFiles.length (3 : Int).toNat).length : Int) = nrows ∧
      (∀ j : Nat, (j : Int) < nrows →
        (specGrid sevenFiles.length (3 : Int).toNat)[j]? =
          some (List.range' (j * (3 : Int).toNat)
            (if (j : Int) = nrows - 1 ∧ remainder ≠ 0 then remainder.toNat
             else (3 : Int).toNat))) ∧
      (specGrid sevenFiles.length (3 : Int).toNat).flatten = List.range sevenFiles.length ∧
      (∀ k : Nat, k < sevenFiles.length → ∃ f : String, sevenFiles[k]? = some f ∧
        figOf (constOps "0.333333") sevenFiles (3 : Int) k =
          "\\includegraphics[width=" ++ (constOps "0.333333").fmtF ((constOps "0.333333").recip (3 : Int)) ++ "\\textwidth]\x7b" ++ f
            ++ "\x7d")) :=
  ⟨by decide, by decide, by decide, by decide, by decide,
    MapFigure_rows_row_major (2 ^ 48) (constOps "0.333333") (NewReport "f") sevenFiles sevenTitles
      ["legend.png"] "cap" 3 (by decide) (by decide) (by decide) (by decide) (by decide)⟩

theorem MapFigure_captions_labelled_witness :
    sevenTitles.length = sevenFiles.length ∧ sevenFiles.length ≤ 26 ∧
    (1 : Int) ≤ 3 ∧ (3 : Int) < 2 ^ 63 ∧ (3 : Int) ≤ ((2 ^ 48 : Nat) : Int) ∧
    ((∃ r1 : Report,
      MapFigure (2 ^ 48) (constOps "0.333333") (NewReport "f") sevenFiles sevenTitles ["legend.png"] "cap" (3 : Int) = some r1 ∧
      r1.txt = (NewReport "f").txt ++ (gridHeader (3 : Int).toNat ++
        (concatAll ((specGrid sevenFiles.length (3 : Int).toNat).map (fun idxs =>
            joinCells " &\n" (idxs.map (figOf (constOps "0.333333") sevenFiles (3 : Int))) ++ " \\\\\n" ++
              (joinCells " &\n" (idxs.map (capOf sevenTitles)) ++ " \\\\\n"))) ++
          ("\\end\x7btabular\x7d\n" ++ (concatAll (["legend.png"].map legendLine) ++
            ("\\\\\n" ++ captionText (NewReport "f").StandAlone "cap")))))) ∧
      (specGrid sevenFiles.length (3 : Int).toNat).flatten = List.range sevenFiles.length ∧
      ((specGrid sevenFiles.length (3 : Int).toNat).flatten.map (capOf sevenTitles)).length
        = sevenFiles.length ∧
      (∀ k : Nat, k < sevenFiles.length → ∃ T : String, sevenTitles[k]? = some T ∧
        ((specGrid sevenFiles.length (3 : Int).toNat).flatten.map (capOf sevenTitles))[k]? =
          some ("(" ++ String.singleton (Char.ofNat ('A'.toNat + k)) ++ ") " ++ T))) ∧
    (specGrid 7 3 = [[0, 1, 2], [3, 4, 5], [6]] ∧
     (specGrid 7 3).map (fun idxs => idxs.map (capOf sevenTitles)) =
       [["(A) t1", "(B) t2", "(C) t3"], ["(D) t4", "(E) t5", "(F) t6"], ["(G) t7"]] ∧
     (List.range 26).map (fun k => String.singleton (Char.ofNat ('A'.toNat + k))) =
       ["A", "B", "C", "D", "E", "F", "G", "H", "I", "J", "K", "L", "M",
        "N", "O", "P", "Q", "R", "S", "T", "U", "V", "W", "X", "Y", "Z"]) :=
  ⟨by decide, by decide, by decide, by decide, by decide,
    MapFigure_captions_labelled (2 ^ 48) (constOps "0.333333") (NewReport "f") sevenFiles sevenTitles
      ["legend.png"] "cap" 3 (by decide) (by decide) (by decide) (by decide) (by decide),
    by decide⟩

theorem MapFigure_indices_in_range_witness :
    sevenTitles.length = sevenFiles.length ∧ sevenFiles.length ≤ 26 ∧
    (1 : Int) ≤ 3 ∧ (3 : Int) < 2 ^ 63 ∧
    (∃ nrows remainder : Int,
      numrows (sevenFiles.length : Int) (3 : Int) = some (nrows, remainder) ∧
      (∀ txt0 : String, ∃ s : GridState,
        rowLoop (constOps "0.333333") sevenFiles sevenTitles (3 : Int) nrows remainder 0
          { txt := txt0, i := 0, ii := 0 } = some s ∧
        s.i = (sevenFiles.length : Int) ∧ s.ii = (sevenFiles.length : Int)) ∧
      (∀ (maxAlloc : Nat) (r : Report) (legendFiles : List String) (caption : String),
        (MapFigure maxAlloc (constOps "0.333333") r sevenFiles sevenTitles legendFiles caption (3 : Int) = none ↔
          stringsRepeat maxAlloc "c" (3 : Int) = none) ∧
        ((3 : Int) ≤ (maxAlloc : Int) →
          ∃ r1 : Report,
            MapFigure maxAlloc (constOps "0.333333") r sevenFiles sevenTitles legendFiles caption (3 : Int)
              = some r1))) :=
  ⟨by decide, by decide, by decide, by decide,
    MapFigure_indices_in_range (constOps "0.333333") sevenFiles sevenTitles 3
      (by decide) (by decide) (by decide) (by decide)⟩

theorem MapFigure_text_order_witness :
    MapFigure (2 ^ 48) (constOps "1.000000") (NewReport "f") ["m1.png"] ["t1"] ["legend.png"] "cap" 1 =
      some { NewReport "f" with
        txt := (NewReport "f").txt ++ specFigureText (constOps "1.000000") ["m1.png"] ["t1"] ["legend.png"] "cap" false 1 } ∧
    (∃ (nrows remainder : Int) (g : GridState),
      numrows (["m1.png"].length : Int) (1 : Int) = some (nrows, remainder) ∧
      rowLoop (constOps "1.000000") ["m1.png"] ["t1"] (1 : Int) nrows remainder 0 { txt := "", i := 0, ii := 0 }
        = some g ∧
      ({ NewReport "f" with
        txt := (NewReport "f").txt ++ specFigureText (constOps "1.000000") ["m1.png"] ["t1"] ["legend.png"] "cap" false 1 }).txt = (NewReport "f").txt ++ (gridHeader (1 : Int).toNat ++ (g.txt ++ ("\\end\x7btabular\x7d\n" ++
        (concatAll (["legend.png"].map legendLine) ++ ("\\\\\n" ++
          (if (NewReport "f").StandAlone = true then
             "\\end\x7bcenter\x7d\n\\caption*\x7b" ++ "cap" ++ "\x7d\n\\end\x7bfigure\x7d\n"
           else
             "\\end\x7bcenter\x7d\n\\caption\x7b" ++ "cap" ++ "\x7d\n\\end\x7bfigure\x7d\n")))))) ∧
      ({ NewReport "f" with
        txt := (NewReport "f").txt ++ specFigureText (constOps "1.000000") ["m1.png"] ["t1"] ["legend.png"] "cap" false 1 }).StandAlone = (NewReport "f").StandAlone) :=
  ⟨MapFigure_spec (2 ^ 48) (constOps "1.000000") (NewReport "f") ["m1.png"] ["t1"] ["legend.png"]
      "cap" 1 (by decide) (by decide) (by decide) (by decide) (by decide),
    MapFigure_text_order (2 ^ 48) (constOps "1.000000") (NewReport "f") _ ["m1.png"] ["t1"] ["legend.png"] "cap" 1
      (MapFigure_spec (2 ^ 48) (constOps "1.000000") (NewReport "f") ["m1.png"] ["t1"] ["legend.png"]
        "cap" 1 (by decide) (by decide) (by decide) (by decide) (by decide))⟩


end Latexreport
